import Mathlib

/-!
# Buffering-and-forwarding pipeline (`src/sobes/main.go`)

A shallow embedding of the Go program: the `Fact` record, its JSON struct tags,
the form fields built by `sendFact`, and the three kinds of goroutines
(`submitHandler`, `bufferWorker`/`flushBuffer`, `sendWorker`) as one
interleaved transition system over the shared variables `buffer`, `mutex`,
`flushChan` and `sendChan`.
-/

namespace Sobes

/-! ## Constants and the record type -/

/-- Constant `bufferSize` (main.go:16). -/
def bufferSize : Nat := 1000

/-- The struct `Fact` (main.go:31-42). Go `int` fields are integers, `string`
fields are strings; no field is a pointer, so a field has no "absent" state. -/
structure Fact where
  PeriodStart : String
  PeriodEnd : String
  PeriodKey : String
  IndicatorToMoID : Int
  IndicatorToMoFactID : Int
  Value : Int
  FactTime : String
  IsPlan : Int
  AuthUserID : Int
  Comment : String
deriving DecidableEq, Repr

/-- The zero value of `Fact`, what `var fact Fact` (main.go:59) holds. -/
def Fact.zero : Fact := ⟨"", "", "", 0, 0, 0, "", 0, 0, ""⟩

/-! ## JSON side: `encoding/json` applied to the struct tags of `Fact` -/

/-- A JSON value as the decoder sees it when it fills a field of `Fact`. -/
inductive JValue where
  /-- The literal `null`. -/
  | null
  /-- The literals `true` and `false`. -/
  | bool (b : Bool)
  /-- A number literal with neither fraction nor exponent. -/
  | int (n : Int)
  /-- Any other number literal. -/
  | float
  /-- A string literal. -/
  | str (s : String)
  /-- An array or a nested object. -/
  | composite
deriving DecidableEq, Repr

/-- A request body as `json.NewDecoder(r.Body).Decode` reads it. -/
inductive Body where
  /-- Not a JSON value at all (syntax error, empty body). -/
  | malformed
  /-- A top-level value that is not an object. -/
  | value (v : JValue)
  /-- A top-level object, its members in the order they are written. -/
  | object (members : List (String × JValue))
deriving DecidableEq, Repr

/-- Go `int` is 64 bits wide on the platforms the server runs on. -/
def fitsInt (n : Int) : Bool := decide (-(2 ^ 63) ≤ n) && decide (n < 2 ^ 63)

/-- Decoding a JSON value into a `string` field holding `cur`. -/
def decodeString (v : JValue) (cur : String) : Option String :=
  match v with
  | .str s => some s
  | .null => some cur
  | _ => none

/-- Decoding a JSON value into an `int` field holding `cur`. -/
def decodeInt (v : JValue) (cur : Int) : Option Int :=
  match v with
  | .int n => if fitsInt n then some n else none
  | .null => some cur
  | _ => none

/-- Case folding of one character of an object key, as the decoder compares
keys with field names: ASCII lower case to upper case; the Kelvin sign (U+212A)
and the long s (U+017F), the two characters outside ASCII that fold to an ASCII
letter, to `K` and `S`. Folding among other characters is left out: no key
holding one of them matches a tag of `Fact`. -/
def foldChar (c : Char) : Char :=
  if 97 ≤ c.toNat ∧ c.toNat ≤ 122 then Char.ofNat (c.toNat - 32)
  else if c.toNat = 0x212A then Char.ofNat 75
  else if c.toNat = 0x17F then Char.ofNat 83
  else c

/-- An object key or field name, case-folded. -/
def foldName (s : String) : String := String.mk (s.data.map foldChar)

/-- One object member applied to the struct: the key selects the field whose
`json:"..."` tag (main.go:32-41) it equals up to case; a key that matches no
tag is skipped. -/
def decodeMember (f : Fact) (kv : String × JValue) : Option Fact :=
  if foldName kv.1 = "PERIOD_START" then
    (decodeString kv.2 f.PeriodStart).map fun s => { f with PeriodStart := s }
  else if foldName kv.1 = "PERIOD_END" then
    (decodeString kv.2 f.PeriodEnd).map fun s => { f with PeriodEnd := s }
  else if foldName kv.1 = "PERIOD_KEY" then
    (decodeString kv.2 f.PeriodKey).map fun s => { f with PeriodKey := s }
  else if foldName kv.1 = "INDICATOR_TO_MO_ID" then
    (decodeInt kv.2 f.IndicatorToMoID).map fun n => { f with IndicatorToMoID := n }
  else if foldName kv.1 = "INDICATOR_TO_MO_FACT_ID" then
    (decodeInt kv.2 f.IndicatorToMoFactID).map fun n => { f with IndicatorToMoFactID := n }
  else if foldName kv.1 = "VALUE" then
    (decodeInt kv.2 f.Value).map fun n => { f with Value := n }
  else if foldName kv.1 = "FACT_TIME" then
    (decodeString kv.2 f.FactTime).map fun s => { f with FactTime := s }
  else if foldName kv.1 = "IS_PLAN" then
    (decodeInt kv.2 f.IsPlan).map fun n => { f with IsPlan := n }
  else if foldName kv.1 = "AUTH_USER_ID" then
    (decodeInt kv.2 f.AuthUserID).map fun n => { f with AuthUserID := n }
  else if foldName kv.1 = "COMMENT" then
    (decodeString kv.2 f.Comment).map fun s => { f with Comment := s }
  else
    some f

/-- The members of an object applied in order to `f`; `none` as soon as one
member has the wrong type (the decoder then reports an error). -/
def decodeMembers (f : Fact) : List (String × JValue) → Option Fact
  | [] => some f
  | kv :: rest => (decodeMember f kv).bind fun g => decodeMembers g rest

/-- The call `json.NewDecoder(r.Body).Decode(&fact)` (main.go:59-60) with `fact`
zero-initialised: `none` when it returns an error. -/
def decodeFact : Body → Option Fact
  | .malformed => none
  | .value .null => some Fact.zero
  | .value _ => none
  | .object members => decodeMembers Fact.zero members

/-- A `string` field under `omitempty`: left out when empty. -/
def marshalString (key : String) (v : String) : List (String × JValue) :=
  if v = "" then [] else [(key, .str v)]

/-- An `int` field under `omitempty`: left out when zero. -/
def marshalInt (key : String) (v : Int) : List (String × JValue) :=
  if v = 0 then [] else [(key, .int v)]

/-- The JSON object that the struct tags of `Fact` (main.go:32-41, every one
with `omitempty`) give a value of the type. -/
def marshalFact (f : Fact) : List (String × JValue) :=
  marshalString "period_start" f.PeriodStart ++
  marshalString "period_end" f.PeriodEnd ++
  marshalString "period_key" f.PeriodKey ++
  marshalInt "indicator_to_mo_id" f.IndicatorToMoID ++
  marshalInt "indicator_to_mo_fact_id" f.IndicatorToMoFactID ++
  marshalInt "value" f.Value ++
  marshalString "fact_time" f.FactTime ++
  marshalInt "is_plan" f.IsPlan ++
  marshalInt "auth_user_id" f.AuthUserID ++
  marshalString "comment" f.Comment

/-! ## Outbound side: `sendFact` -/

/-- The type `url.Values`: keys with their lists of values. -/
abbrev Values := List (String × List String)

/-- The method `url.Values.Set`: the key gets exactly the one value given,
whatever it had before. -/
def Values.Set : Values → String → String → Values
  | [], key, value => [(key, [value])]
  | (k, vs) :: rest, key, value =>
    if k = key then (k, [value]) :: rest else (k, vs) :: Values.Set rest key value

/-- The method `url.Values.Get`-like lookup of all values of a key. -/
def Values.lookup : Values → String → Option (List String)
  | [], _ => none
  | (k, vs) :: rest, key => if k = key then some vs else Values.lookup rest key

/-- The function `strconv.Itoa`: decimal text, with a leading minus sign for a
negative number. -/
def Itoa (i : Int) : String :=
  if i < 0 then "-" ++ Nat.repr i.natAbs else Nat.repr i.natAbs

/-- The form fields `data` that `sendFact` builds (main.go:131-141). The request
body is `data.Encode()`, the form serialisation of these pairs. -/
def formData (fact : Fact) : Values :=
  let data : Values := []
  let data := data.Set "period_start" fact.PeriodStart
  let data := data.Set "period_end" fact.PeriodEnd
  let data := data.Set "period_key" fact.PeriodKey
  let data := data.Set "indicator_to_mo_id" (Itoa fact.IndicatorToMoID)
  let data := data.Set "indicator_to_mo_fact_id" (Itoa fact.IndicatorToMoFactID)
  let data := data.Set "value" (Itoa fact.Value)
  let data := data.Set "fact_time" fact.FactTime
  let data := data.Set "is_plan" (Itoa fact.IsPlan)
  let data := data.Set "auth_user_id" (Itoa fact.AuthUserID)
  let data := data.Set "comment" fact.Comment
  data

/-- What the outside world answers to one call of `sendFact`. -/
inductive Outcome where
  /-- The call `http.NewRequest` returns an error (main.go:144-149). -/
  | newRequestErr
  /-- The call `client.Do` returns an error (main.go:157-162). -/
  | doErr
  /-- The collector answers with this status code. -/
  | status (code : Nat)
deriving DecidableEq, Repr

/-- The line `sendFact` writes to the log. -/
inductive LogMsg where
  /-- Request construction failed (main.go:147). -/
  | createErr
  /-- Sending failed (main.go:160). -/
  | sendErr
  /-- A status other than 200, logged with the record (main.go:167). -/
  | badStatus (code : Nat) (fact : Fact)
  /-- Success (main.go:171). -/
  | ok
deriving DecidableEq, Repr

/-- The function `sendFact` (main.go:129-172): every path returns after one
log line; none touches `buffer` or `sendChan`. -/
def sendFact (fact : Fact) (o : Outcome) : LogMsg :=
  match o with
  | .newRequestErr => .createErr
  | .doErr => .sendErr
  | .status code => if code ≠ 200 then .badStatus code fact else .ok

/-! ## The interleaved system -/

/-- Who holds `mutex`. -/
inductive Owner where
  /-- The handler goroutine of request number `i`. -/
  | handler (i : Nat)
  /-- The goroutine of `bufferWorker`, inside `flushBuffer`. -/
  | flusher
deriving DecidableEq, Repr

/-- Program points of `submitHandler` (main.go:58-78): the statement the
goroutine executes next. -/
inductive HandlerPc where
  /-- Line 60: decode the body. -/
  | decode
  /-- Line 62: `w.WriteHeader(http.StatusBadRequest)`. -/
  | bad
  /-- Line 67: `mutex.Lock()`. -/
  | lock (fact : Fact)
  /-- Line 68: `buffer = append(buffer, fact)`. -/
  | append (fact : Fact)
  /-- Line 69: `if len(buffer) >= bufferSize`. -/
  | check
  /-- Line 71: `flushChan <- struct{}{}`. -/
  | signal
  /-- Line 73: `mutex.Unlock()`. -/
  | unlock
  /-- Line 76: `w.WriteHeader(http.StatusAccepted)`. -/
  | accept
  /-- Returned, with the status code written. -/
  | done (status : Nat)
deriving DecidableEq, Repr

/-- One handler goroutine: its request body and its program point. -/
structure Handler where
  body : Body
  pc : HandlerPc
deriving DecidableEq, Repr

/-- Program points of `bufferWorker` and `flushBuffer` (main.go:81-118). -/
inductive FlushPc where
  /-- Line 86: the `select` on `ticker.C` and `flushChan`. -/
  | select
  /-- Line 99: `mutex.Lock()`. -/
  | lock1
  /-- Line 100: `bufferLen := len(buffer)`. -/
  | readLen
  /-- Line 101: `mutex.Unlock()`. -/
  | unlock1 (bufferLen : Nat)
  /-- Line 104: `if bufferLen == 0`. -/
  | check (bufferLen : Nat)
  /-- Line 109: `mutex.Lock()`. -/
  | lock2
  /-- Line 110: `for len(buffer) > 0`. -/
  | loopTest
  /-- Lines 111-112: `fact := buffer[0]; buffer = buffer[1:]`. -/
  | take
  /-- Line 113: `mutex.Unlock()`. -/
  | unlockLoop (fact : Fact)
  /-- Line 114: `sendChan <- fact`. -/
  | send (fact : Fact)
  /-- Line 115: `mutex.Lock()`. -/
  | relock
  /-- Line 117: `mutex.Unlock()`. -/
  | unlockEnd
deriving DecidableEq, Repr

/-- Program points of `sendWorker` (main.go:121-126). -/
inductive SendPc where
  /-- Line 122: receive the next record from `sendChan`. -/
  | recv
  /-- Line 124: `sendFact(fact)`. -/
  | sendFact (fact : Fact)
deriving DecidableEq, Repr

/-- The shared variables (main.go:23-28), the program points of all goroutines,
and the history of what has happened so far. -/
structure State where
  /-- The variable `buffer`. -/
  buffer : List Fact
  /-- The variable `mutex`: `none` when unlocked. -/
  mutex : Option Owner
  /-- The content of `sendChan`, oldest first. -/
  sendChan : List Fact
  /-- One entry per request received so far. -/
  handlers : List Handler
  /-- Where `bufferWorker` is. -/
  flusher : FlushPc
  /-- Where `sendWorker` is. -/
  sender : SendPc
  /-- History: the records appended to `buffer`, in the order of the appends. -/
  appended : List Fact
  /-- History: the records sent into `sendChan`, in the order of the sends. -/
  queued : List Fact
  /-- History: the records `sendWorker` has received from `sendChan`. -/
  taken : List Fact
  /-- History: the records `sendFact` has been called with. -/
  attempts : List Fact
  /-- History: the log lines of `sendFact`. -/
  logs : List LogMsg
  /-- History: how many times a handler has reached the send on `flushChan`. -/
  signals : Nat
deriving DecidableEq, Repr

/-- The state at process start: everything empty, `bufferWorker` at its
`select`, `sendWorker` at its receive. -/
def init : State :=
  { buffer := [], mutex := none, sendChan := [], handlers := [],
    flusher := .select, sender := .recv,
    appended := [], queued := [], taken := [], attempts := [], logs := [],
    signals := 0 }

/-- What moves next: the scheduler's choice together with the input from
outside. -/
inductive Action where
  /-- A request with this body arrives; its handler goroutine starts. -/
  | request (body : Body)
  /-- The handler of request `i` executes its next statement. -/
  | handler (i : Nat)
  /-- The ticker fires and the `select` of `bufferWorker` takes it. -/
  | tick
  /-- The goroutine of `bufferWorker` executes its next statement. -/
  | flush
  /-- The goroutine of `sendWorker` receives from `sendChan`. -/
  | recv
  /-- The call `sendFact(fact)` runs, with this outcome. -/
  | sendFact (o : Outcome)
deriving DecidableEq, Repr

/-- Handler `i` moves to program point `pc`. -/
def State.setPc (s : State) (i : Nat) (h : Handler) (pc : HandlerPc) : State :=
  { s with handlers := s.handlers.set i { h with pc := pc } }

/-- One statement of `submitHandler`, executed by the handler of request `i`;
`none` when the goroutine cannot move (it is blocked, or has returned). -/
def submitHandler (s : State) (i : Nat) : Option State :=
  match s.handlers[i]? with
  | none => none
  | some h =>
    match h.pc with
    | .decode =>
      match decodeFact h.body with
      | none => some (s.setPc i h .bad)
      | some fact => some (s.setPc i h (.lock fact))
    | .bad => some (s.setPc i h (.done 400))
    | .lock fact =>
      if s.mutex = none then
        some ({ s with mutex := some (.handler i) }.setPc i h (.append fact))
      else none
    | .append fact =>
      some ({ s with buffer := s.buffer ++ [fact],
                     appended := s.appended ++ [fact] }.setPc i h .check)
    | .check =>
      if s.buffer.length ≥ bufferSize then
        some ({ s with signals := s.signals + 1 }.setPc i h .signal)
      else some (s.setPc i h .unlock)
    | .signal =>
      -- `flushChan` is unbuffered: the send completes only together with the
      -- receive in the `select` of `bufferWorker`
      if s.flusher = .select then
        some ({ s with flusher := .lock1 }.setPc i h .unlock)
      else none
    | .unlock =>
      if s.mutex = none then none
      else some ({ s with mutex := none }.setPc i h .accept)
    | .accept => some (s.setPc i h (.done 202))
    | .done _ => none

/-- One statement of `bufferWorker`/`flushBuffer`; `none` when blocked. -/
def flushBuffer (s : State) : Option State :=
  match s.flusher with
  | .select => none
  | .lock1 =>
    if s.mutex = none then some { s with mutex := some .flusher, flusher := .readLen }
    else none
  | .readLen => some { s with flusher := .unlock1 s.buffer.length }
  | .unlock1 n =>
    if s.mutex = none then none else some { s with mutex := none, flusher := .check n }
  | .check n =>
    if n = 0 then some { s with flusher := .select }
    else some { s with flusher := .lock2 }
  | .lock2 =>
    if s.mutex = none then some { s with mutex := some .flusher, flusher := .loopTest }
    else none
  | .loopTest =>
    if s.buffer.length > 0 then some { s with flusher := .take }
    else some { s with flusher := .unlockEnd }
  | .take =>
    match s.buffer with
    | [] => none
    | fact :: rest => some { s with buffer := rest, flusher := .unlockLoop fact }
  | .unlockLoop fact =>
    if s.mutex = none then none else some { s with mutex := none, flusher := .send fact }
  | .send fact =>
    if s.sendChan.length < bufferSize then
      some { s with sendChan := s.sendChan ++ [fact], queued := s.queued ++ [fact],
                    flusher := .relock }
    else none
  | .relock =>
    if s.mutex = none then some { s with mutex := some .flusher, flusher := .loopTest }
    else none
  | .unlockEnd =>
    if s.mutex = none then none else some { s with mutex := none, flusher := .select }

/-- The `select` of `bufferWorker` (main.go:86-93) taking the ticker; the
branch that receives from `flushChan` is the completion of the send in
`submitHandler`. Either way `flushBuffer` is called. -/
def bufferWorker (s : State) : Option State :=
  if s.flusher = .select then some { s with flusher := .lock1 } else none

/-- One statement of `sendWorker` (main.go:121-126): without an outcome the
receive from `sendChan`, with an outcome the call `sendFact(fact)`; `none` when
the goroutine is not at that statement or the channel is empty. -/
def sendWorker (s : State) : Option Outcome → Option State
  | none =>
    match s.sender with
    | .recv =>
      match s.sendChan with
      | [] => none
      | fact :: rest =>
        some { s with sendChan := rest, taken := s.taken ++ [fact], sender := .sendFact fact }
    | .sendFact _ => none
  | some o =>
    match s.sender with
    | .recv => none
    | .sendFact fact =>
      some { s with attempts := s.attempts ++ [fact], logs := s.logs ++ [sendFact fact o],
                    sender := .recv }

/-- One step of the whole system. -/
def step (s : State) : Action → Option State
  | .request body => some { s with handlers := s.handlers ++ [{ body := body, pc := .decode }] }
  | .handler i => submitHandler s i
  | .tick => bufferWorker s
  | .flush => flushBuffer s
  | .recv => sendWorker s none
  | .sendFact o => sendWorker s (some o)

/-- A schedule executed from `s`; `none` when some action in it is not enabled. -/
def run (s : State) : List Action → Option State
  | [] => some s
  | a :: rest => (step s a).bind fun t => run t rest

/-! ## Predicates on states -/

/-- The record `flushBuffer` has removed from `buffer` and holds in its local
variable `fact`, not yet sent (main.go:111-114). -/
def FlushPc.inflight : FlushPc → List Fact
  | .unlockLoop fact => [fact]
  | .send fact => [fact]
  | _ => []

/-- The record `sendWorker` has received and not yet passed to `sendFact`. -/
def SendPc.pending : SendPc → List Fact
  | .sendFact fact => [fact]
  | .recv => []

/-- Where every appended record is: `appended` splits into what was queued, what
`flushBuffer` holds, and `buffer`; `queued` into what was taken and `sendChan`;
`taken` into the attempts made and the record about to be attempted. -/
def OrderInv (s : State) : Prop :=
  s.appended = s.queued ++ s.flusher.inflight ++ s.buffer ∧
  s.queued = s.taken ++ s.sendChan ∧
  s.taken = s.attempts ++ s.sender.pending

/-- Program points of `submitHandler` between its `mutex.Lock()` and its
`mutex.Unlock()` (main.go:68-73). -/
def HandlerPc.holds : HandlerPc → Bool
  | .append _ => true
  | .check => true
  | .signal => true
  | .unlock => true
  | _ => false

/-- Program points of `flushBuffer` between a `mutex.Lock()` and the next
`mutex.Unlock()` (main.go:100-101, 110-113, 117). -/
def FlushPc.holds : FlushPc → Bool
  | .readLen => true
  | .unlock1 _ => true
  | .loopTest => true
  | .take => true
  | .unlockLoop _ => true
  | .unlockEnd => true
  | _ => false

/-- The owner recorded in `mutex` is the goroutine whose program point lies
between its `Lock` and its `Unlock`, and no other goroutine is at such a point. -/
def LockInv (s : State) : Prop :=
  (s.flusher.holds = true ↔ s.mutex = some .flusher) ∧
  (∀ i h, s.handlers[i]? = some h → (h.pc.holds = true ↔ s.mutex = some (.handler i))) ∧
  (∀ i, s.mutex = some (.handler i) → i < s.handlers.length)

/-! ## Schedules and sample states -/

/-- The number of statements `flushBuffer` executes when `buffer` holds `n`
records and nothing is appended meanwhile: four on the empty path, otherwise
five up to the loop, five per record, two after the loop. -/
def flushSteps (n : Nat) : Nat := if n = 0 then 4 else 5 * n + 7

/-- A request and the first `steps` statements of its handler, nothing else
running in between; `i` is the number of the request. -/
def submitSched (i : Nat) (body : Body) (steps : Nat) : List Action :=
  .request body :: List.replicate steps (.handler i)

/-- Requests handled one after another from request number `i` on, each handler
running the six statements of the path without a flush signal to its end. -/
def submitAll (i : Nat) : List Body → List Action
  | [] => []
  | b :: bs => submitSched i b 6 ++ submitAll (i + 1) bs

/-- A sample record. -/
def sampleFact : Fact := { Fact.zero with Value := 5, Comment := "x" }

/-- The body that decodes to `sampleFact`. -/
def sampleBody : Body := .object [("value", .int 5), ("comment", .str "x")]

/-- One accepted request, then a timer flush up to the point where the record
is out of `buffer` and about to be sent. -/
def midFlushSched : List Action :=
  submitSched 0 sampleBody 6 ++ .tick :: List.replicate 8 .flush

/-- The state `midFlushSched` leads to. -/
def midFlushState : State :=
  { init with handlers := [⟨sampleBody, .done 202⟩], flusher := .send sampleFact,
              appended := [sampleFact] }

/-- The schedule of the threshold scenario: the requests `bs` handled one after
another, then one more request `b` whose handler runs all seven statements of
the path with the flush signal. -/
def thresholdSched (bs : List Body) (b : Body) : List Action :=
  submitAll 0 bs ++ submitSched bs.length b 7

/-- The handlers of requests that have all been answered with 202. -/
def accepted (bs : List Body) : List Handler :=
  bs.map fun b => { body := b, pc := .done 202 }

/-- What the program point of a handler says about its request: which way the
decoding went and, past line 68, that the decoded record was appended. -/
def Handler.ok (appended : List Fact) (h : Handler) : Prop :=
  match h.pc with
  | .decode => True
  | .bad => decodeFact h.body = none
  | .lock fact => decodeFact h.body = some fact
  | .append fact => decodeFact h.body = some fact
  | .done status =>
    (status = 400 ∧ decodeFact h.body = none) ∨
    (status = 202 ∧ ∃ fact, decodeFact h.body = some fact ∧ fact ∈ appended)
  | _ => ∃ fact, decodeFact h.body = some fact ∧ fact ∈ appended

/-- Every handler is at a program point that fits its request. -/
def HandlerInv (s : State) : Prop := ∀ h ∈ s.handlers, h.ok s.appended

/-- The schedule in which `sendWorker` receives and delivers one record per
outcome given, nothing else running. -/
def deliverSched : List Outcome → List Action
  | [] => []
  | o :: os => .recv :: .sendFact o :: deliverSched os

/-- The state right after a timer tick, with `flushBuffer` holding the mutex
and about to read `len(buffer)`. -/
def readLenState : State :=
  { init with mutex := some .flusher, flusher := .readLen }

/-- A state with two records in `sendChan` and `sendWorker` idle. -/
def twoQueued : State :=
  { init with sendChan := [sampleFact, Fact.zero], appended := [sampleFact, Fact.zero],
              queued := [sampleFact, Fact.zero],
              handlers := accepted [sampleBody, .object []] }

/-- The schedule that leads to `twoQueued`: two requests, then a timer flush. -/
def twoQueuedSched : List Action :=
  submitAll 0 [sampleBody, .object []] ++ .tick :: List.replicate 17 .flush

/-- The `bufferSize` records of the deadlock scenario. -/
def fullBuffer : List Fact := List.replicate 999 sampleFact ++ [sampleFact]

/-- The deadlock scenario: 999 requests handled one after another; request
number 999 arrives, its handler decodes the body and locks the mutex; the ticker
fires and `bufferWorker` enters `flushBuffer`; the handler appends its record
and finds `len(buffer) >= bufferSize`. -/
def deadlockSched : List Action :=
  submitAll 0 (List.replicate 999 sampleBody) ++
    [.request sampleBody, .handler 999, .handler 999, .tick, .handler 999, .handler 999]

/-- The state `deadlockSched` leads to: handler 999 holds the mutex and is at
the send on `flushChan` (line 71); `bufferWorker` is at the first
`mutex.Lock()` of `flushBuffer` (line 99). -/
def deadlockState : State :=
  { init with
      handlers := accepted (List.replicate 999 sampleBody) ++ [⟨sampleBody, .signal⟩],
      buffer := fullBuffer, appended := fullBuffer,
      mutex := some (.handler 999), flusher := .lock1, signals := 1 }

/-- Program points of a handler that is not in its critical section and has
not passed it since request `k` took the mutex: before the `Lock`, or returned
(with 202 only for a request older than `k`). -/
def HandlerPc.outside (k i : Nat) : HandlerPc → Prop
  | .decode => True
  | .bad => True
  | .lock _ => True
  | .done status => status = 400 ∨ i < k
  | _ => False

/-- The deadlock: handler `k` holds the mutex and waits at the send on
`flushChan`, `bufferWorker` waits at the first `mutex.Lock()` of `flushBuffer`,
every other handler is outside its critical section, `buffer` is `buf`. -/
def Stuck (k : Nat) (buf : List Fact) (s : State) : Prop :=
  s.mutex = some (.handler k) ∧ s.flusher = .lock1 ∧ s.buffer = buf ∧
  (∃ h, s.handlers[k]? = some h ∧ h.pc = .signal) ∧
  ∀ i h, s.handlers[i]? = some h → i ≠ k → h.pc.outside k i

/-- The keys `sendFact` sets, in the order of the calls (main.go:132-141). -/
def formKeys : List String :=
  ["period_start", "period_end", "period_key", "indicator_to_mo_id",
   "indicator_to_mo_fact_id", "value", "fact_time", "is_plan", "auth_user_id", "comment"]

/-- The JSON tags of the `string` fields of `Fact`. -/
def stringKeys : List String :=
  ["period_start", "period_end", "period_key", "fact_time", "comment"]

/-- The JSON tags of the `int` fields of `Fact`. -/
def intKeys : List String :=
  ["indicator_to_mo_id", "indicator_to_mo_fact_id", "value", "is_plan", "auth_user_id"]

/-- The explicit zero of the field with tag `key`: `0` for an `int` field, the
empty string for a `string` field. -/
def zeroValue (key : String) : JValue :=
  if key ∈ intKeys then .int 0 else .str ""

/-- The value of the field with tag `key`, as a JSON value. -/
def Fact.field (f : Fact) (key : String) : Option JValue :=
  if key = "period_start" then some (.str f.PeriodStart)
  else if key = "period_end" then some (.str f.PeriodEnd)
  else if key = "period_key" then some (.str f.PeriodKey)
  else if key = "indicator_to_mo_id" then some (.int f.IndicatorToMoID)
  else if key = "indicator_to_mo_fact_id" then some (.int f.IndicatorToMoFactID)
  else if key = "value" then some (.int f.Value)
  else if key = "fact_time" then some (.str f.FactTime)
  else if key = "is_plan" then some (.int f.IsPlan)
  else if key = "auth_user_id" then some (.int f.AuthUserID)
  else if key = "comment" then some (.str f.Comment)
  else none

/-- The number that a list of decimal digits writes, most significant first. -/
def digitsValue (cs : List Char) : Nat :=
  cs.foldl (fun acc c => 10 * acc + (c.toNat - 48)) 0

/-- The integer that a decimal text writes: the digits read as a number, negated
when a minus sign (code point 45) precedes them. -/
def decimalValue (s : String) : Int :=
  match s.data with
  | [] => 0
  | c :: cs => if c.toNat = 45 then -(digitsValue cs : Int) else (digitsValue (c :: cs) : Int)

/-! ## General facts about schedules -/

theorem run_append (s : State) (xs ys : List Action) :
    run s (xs ++ ys) = (run s xs).bind fun t => run t ys := by
  induction xs generalizing s with
  | nil => simp [run]
  | cons a xs ih =>
    simp only [List.cons_append, run]
    cases step s a with
    | none => simp
    | some t => simpa using ih t

theorem run_invariant (P : State → Prop)
    (hstep : ∀ s a t, P s → step s a = some t → P t) :
    ∀ (acts : List Action) (s t : State), P s → run s acts = some t → P t := by
  intro acts
  induction acts with
  | nil => intro s t hs h; simp [run] at h; subst h; exact hs
  | cons a rest ih =>
    intro s t hs h
    simp only [run] at h
    cases hsa : step s a with
    | none => simp [hsa] at h
    | some u =>
      simp [hsa] at h
      exact ih u t (hstep s a u hs hsa) h

theorem lt_length_of_getElem? {l : List Handler} {i : Nat} {h : Handler}
    (hi : l[i]? = some h) : i < l.length := by
  rcases Nat.lt_or_ge i l.length with h1 | h1
  · exact h1
  · rw [List.getElem?_eq_none h1] at hi; cases hi

theorem getElem?_set_pc {l : List Handler} {i j : Nat} {h g : Handler} {pc : HandlerPc}
    (hi : l[i]? = some h) (hj : (l.set i { h with pc := pc })[j]? = some g) :
    (j = i ∧ g = { h with pc := pc }) ∨ (j ≠ i ∧ l[j]? = some g) := by
  rw [List.getElem?_set] at hj
  by_cases hij : i = j
  · subst hij
    left
    have hlt : i < l.length := lt_length_of_getElem? hi
    simp [hlt] at hj
    exact ⟨rfl, hj.symm⟩
  · right
    simp [hij] at hj
    exact ⟨fun e => hij e.symm, hj⟩

/-! ## The order invariant -/

theorem orderInv_init : OrderInv init := by
  simp [OrderInv, init, FlushPc.inflight, SendPc.pending]

theorem orderInv_step (s : State) (a : Action) (t : State)
    (h : OrderInv s) (hs : step s a = some t) : OrderInv t := by
  obtain ⟨h1, h2, h3⟩ := h
  cases a with
  | request body =>
    simp only [step, Option.some.injEq] at hs
    subst hs
    exact ⟨h1, h2, h3⟩
  | handler i =>
    simp only [step, submitHandler] at hs
    split at hs
    · simp at hs
    · split at hs <;> (try split at hs) <;>
        simp only [Option.some.injEq, State.setPc, reduceCtorEq] at hs <;>
        (try subst hs) <;> simp_all [OrderInv, FlushPc.inflight]
  | tick =>
    simp only [step, bufferWorker, sendWorker] at hs
    split at hs
    · simp at hs; subst hs; simp_all [OrderInv, FlushPc.inflight]
    · simp at hs
  | flush =>
    simp only [step, flushBuffer] at hs
    split at hs <;> (try split at hs) <;> simp only [Option.some.injEq, reduceCtorEq] at hs <;>
        (try subst hs) <;> simp_all [OrderInv, FlushPc.inflight]
  | recv =>
    simp only [step, bufferWorker, sendWorker] at hs
    split at hs <;> (try split at hs) <;> simp only [Option.some.injEq, reduceCtorEq] at hs <;>
        (try subst hs) <;> simp_all [OrderInv, SendPc.pending]
  | sendFact o =>
    simp only [step, bufferWorker, sendWorker] at hs
    split at hs <;> simp only [Option.some.injEq, reduceCtorEq] at hs <;>
        (try subst hs) <;> simp_all [OrderInv, SendPc.pending]

theorem orderInv_run (acts : List Action) (s : State) (h : run init acts = some s) :
    OrderInv s :=
  run_invariant OrderInv orderInv_step acts init s orderInv_init h

/-! ## The lock invariant -/

theorem lockInv_init : LockInv init := by
  simp [LockInv, init, FlushPc.holds]

theorem lockInv_request (s : State) (body : Body) (t : State)
    (h : LockInv s) (hs : step s (.request body) = some t) : LockInv t := by
  obtain ⟨hf, hh, hb⟩ := h
  simp only [step, Option.some.injEq] at hs
  subst hs
  refine ⟨hf, ?_, ?_⟩
  · intro i g hg
    simp only [List.getElem?_append, List.length_singleton] at hg
    split at hg
    · exact hh i g hg
    · rename_i hlt
      by_cases hi : i - s.handlers.length = 0
      · simp [hi] at hg
        subst hg
        simp only [HandlerPc.holds, Bool.false_eq_true, false_iff]
        intro hm
        exact hlt (hb i hm)
      · have hnone : ([{ body := body, pc := HandlerPc.decode }] : List Handler)[
            i - s.handlers.length]? = none := by
          apply List.getElem?_eq_none
          simp; omega
        rw [hnone] at hg; cases hg
  · intro i hm
    have := hb i hm
    simp; omega

theorem lockInv_handler (s : State) (i : Nat) (t : State)
    (h : LockInv s) (hs : step s (.handler i) = some t) : LockInv t := by
  obtain ⟨hf, hh, hb⟩ := h
  simp only [step, submitHandler] at hs
  split at hs
  · simp at hs
  · rename_i h0 hi
    have key := hh i h0 hi
    have hlt := lt_length_of_getElem? hi
    cases hpc : h0.pc <;> simp only [hpc, HandlerPc.holds] at hs key <;>
      (try split at hs) <;> (try split at hs) <;>
      simp only [Option.some.injEq, State.setPc, reduceCtorEq] at hs <;>
      (try subst hs) <;>
      refine ⟨by simp_all [FlushPc.holds], ?_, by simp_all⟩ <;>
      intro j g hg <;>
      rcases getElem?_set_pc hi hg with ⟨rfl, rfl⟩ | ⟨hne, hj⟩ <;>
      first
      | (simp_all [HandlerPc.holds]; done)
      | (have hj2 := hh j g hj; simp_all [HandlerPc.holds]; done)
      | (have hj2 := hh j g hj; simp_all [HandlerPc.holds]; omega)

theorem lockInv_flush (s : State) (t : State)
    (h : LockInv s) (hs : step s .flush = some t) : LockInv t := by
  obtain ⟨hf, hh, hb⟩ := h
  simp only [step, flushBuffer] at hs
  cases hpc : s.flusher <;> simp only [hpc, FlushPc.holds] at hs hf <;>
    (try split at hs) <;> simp only [Option.some.injEq, reduceCtorEq] at hs <;>
    (try subst hs) <;>
    refine ⟨by simp_all [FlushPc.holds], ?_, by simp_all⟩ <;>
    intro j g hg <;> have hj := hh j g hg <;> simp_all

theorem lockInv_step (s : State) (a : Action) (t : State)
    (h : LockInv s) (hs : step s a = some t) : LockInv t := by
  cases a with
  | request body => exact lockInv_request s body t h hs
  | handler i => exact lockInv_handler s i t h hs
  | tick =>
    obtain ⟨hf, hh, hb⟩ := h
    simp only [step, bufferWorker, sendWorker] at hs
    split at hs
    · rename_i hsel
      simp only [Option.some.injEq] at hs
      subst hs
      rw [hsel] at hf
      exact ⟨by simpa [FlushPc.holds] using hf, hh, hb⟩
    · simp at hs
  | flush => exact lockInv_flush s t h hs
  | recv =>
    simp only [step, bufferWorker, sendWorker] at hs
    split at hs <;> (try split at hs) <;> simp only [Option.some.injEq, reduceCtorEq] at hs
    subst hs
    exact h
  | sendFact o =>
    simp only [step, bufferWorker, sendWorker] at hs
    split at hs <;> simp only [Option.some.injEq, reduceCtorEq] at hs
    subst hs
    exact h

theorem lockInv_run (acts : List Action) (s : State) (h : run init acts = some s) :
    LockInv s :=
  run_invariant LockInv lockInv_step acts init s lockInv_init h

/-! ## Runs of one handler and of `flushBuffer` -/

theorem set_concat_length (l : List Handler) (h g : Handler) :
    (l ++ [h]).set l.length g = l ++ [g] := by
  induction l with
  | nil => rfl
  | cons a l ih => simp [List.set, ih]

theorem run_submit_quiet (s : State) (body : Body) (fact : Fact)
    (hd : decodeFact body = some fact) (hm : s.mutex = none)
    (hlen : s.buffer.length + 1 < bufferSize) :
    run s (submitSched s.handlers.length body 6) =
      some { s with handlers := s.handlers ++ [⟨body, .done 202⟩],
                    buffer := s.buffer ++ [fact],
                    appended := s.appended ++ [fact] } := by
  have hl : ¬ (bufferSize ≤ s.buffer.length + 1) := by omega
  simp [submitSched, run, step, submitHandler, State.setPc, List.replicate, hd, hm,
    set_concat_length, hl]

theorem run_submit_signal (s : State) (body : Body) (fact : Fact)
    (hd : decodeFact body = some fact) (hm : s.mutex = none)
    (hlen : bufferSize ≤ s.buffer.length + 1) (hf : s.flusher = .select) :
    run s (submitSched s.handlers.length body 7) =
      some { s with handlers := s.handlers ++ [⟨body, .done 202⟩],
                    buffer := s.buffer ++ [fact],
                    appended := s.appended ++ [fact],
                    signals := s.signals + 1,
                    flusher := .lock1 } := by
  simp [submitSched, run, step, submitHandler, State.setPc, List.replicate, hd, hm,
    set_concat_length, hlen, hf]

theorem run_submit_bad (s : State) (body : Body)
    (hd : decodeFact body = none) :
    run s (submitSched s.handlers.length body 2) =
      some { s with handlers := s.handlers ++ [⟨body, .done 400⟩] } := by
  simp [submitSched, run, step, submitHandler, State.setPc, List.replicate, hd, set_concat_length]

theorem run_submitAll (bs : List Body) : ∀ (fs : List Fact) (s : State),
    bs.map decodeFact = fs.map some → s.mutex = none →
    s.buffer.length + fs.length < bufferSize →
    run s (submitAll s.handlers.length bs) =
      some { s with handlers := s.handlers ++ bs.map (fun b => ⟨b, .done 202⟩),
                    buffer := s.buffer ++ fs,
                    appended := s.appended ++ fs } := by
  induction bs with
  | nil =>
    intro fs s hd hm hlen
    cases fs with
    | nil => simp [submitAll, run]
    | cons f fs => simp at hd
  | cons b bs ih =>
    intro fs s hd hm hlen
    cases fs with
    | nil => simp at hd
    | cons f fs =>
      simp only [List.map_cons, List.cons.injEq] at hd
      simp only [List.length_cons] at hlen
      simp only [submitAll]
      rw [run_append, run_submit_quiet s b f hd.1 hm (by omega)]
      simp only [Option.some_bind]
      have hih := ih fs { s with handlers := s.handlers ++ [⟨b, .done 202⟩],
                                 buffer := s.buffer ++ [f],
                                 appended := s.appended ++ [f] } hd.2 hm
        (by simp; omega)
      simp only [List.length_append, List.length_singleton] at hih
      rw [hih]
      simp

theorem run_flush_loop (b : List Fact) : ∀ (s : State), s.flusher = .loopTest →
    s.mutex = some .flusher → s.buffer = b → s.sendChan.length + b.length ≤ bufferSize →
    run s (List.replicate (5 * b.length) .flush) =
      some { s with buffer := [], sendChan := s.sendChan ++ b, queued := s.queued ++ b } := by
  induction b with
  | nil =>
    intro s hf hm hb _
    cases s
    simp_all [run]
  | cons f r ih =>
    intro s hf hm hb hcap
    have hsplit : List.replicate (5 * (f :: r).length) Action.flush =
        List.replicate 5 Action.flush ++ List.replicate (5 * r.length) Action.flush := by
      rw [← List.replicate_add]; congr 1; simp; omega
    rw [hsplit, run_append]
    simp only [List.length_cons] at hcap
    have hlt : s.sendChan.length < bufferSize := by omega
    have h5 : run s (List.replicate 5 Action.flush) =
        some { s with buffer := r, sendChan := s.sendChan ++ [f], queued := s.queued ++ [f] } := by
      cases s
      simp_all [run, step, flushBuffer, List.replicate]
    rw [h5]
    simp only [Option.some_bind]
    have hih := ih { s with buffer := r, sendChan := s.sendChan ++ [f],
                            queued := s.queued ++ [f] } hf hm rfl (by simp; omega)
    rw [hih]
    simp

theorem run_flushBuffer (s : State) (hf : s.flusher = .lock1) (hm : s.mutex = none)
    (hcap : s.sendChan.length + s.buffer.length ≤ bufferSize) :
    run s (List.replicate (flushSteps s.buffer.length) .flush) =
      some { s with buffer := [], sendChan := s.sendChan ++ s.buffer,
                    queued := s.queued ++ s.buffer, flusher := .select } := by
  by_cases hb : s.buffer.length = 0
  · have hnil : s.buffer = [] := List.length_eq_zero.mp hb
    cases s
    simp_all [flushSteps, run, step, flushBuffer, List.replicate]
  · have hsplit : List.replicate (flushSteps s.buffer.length) Action.flush =
        List.replicate 5 Action.flush ++ (List.replicate (5 * s.buffer.length) Action.flush
          ++ List.replicate 2 Action.flush) := by
      rw [← List.replicate_add, ← List.replicate_add]; congr 1; simp [flushSteps, hb]; omega
    rw [hsplit, run_append]
    have h5 : run s (List.replicate 5 Action.flush) =
        some { s with mutex := some .flusher, flusher := .loopTest } := by
      cases s
      simp_all [run, step, flushBuffer, List.replicate]
    rw [h5]
    simp only [Option.some_bind]
    rw [run_append]
    have hloop := run_flush_loop s.buffer
      { s with mutex := some .flusher, flusher := .loopTest } rfl rfl rfl hcap
    rw [hloop]
    cases s
    simp_all [run, step, flushBuffer, List.replicate]

/-! ## Order, drain and threshold flush -/

/-- C1: in every reachable state the records appended to `buffer`, in the order
of their appends, are the records `sendWorker` has taken, then the content of
`sendChan`, then the record `flushBuffer` holds (if any), then `buffer`; the
records sent into `sendChan` so far are a prefix of the appended ones, in the
same order. -/
theorem pipeline_order_no_loss (acts : List Action) (s : State)
    (h : run init acts = some s) :
    s.appended = s.taken ++ s.sendChan ++ s.flusher.inflight ++ s.buffer ∧
    s.queued = s.taken ++ s.sendChan ∧
    ∃ rest, s.appended = s.queued ++ rest := by
  obtain ⟨h1, h2, _⟩ := orderInv_run acts s h
  refine ⟨by rw [h1, h2], h2, s.flusher.inflight ++ s.buffer, by rw [h1]; simp⟩

/-- An instance of `pipeline_order_no_loss`: after one accepted request and a
timer flush that has taken the record out of `buffer`, the record is the one
`flushBuffer` holds. -/
theorem pipeline_order_no_loss_witness :
    run init midFlushSched = some midFlushState ∧
      midFlushState.appended = midFlushState.taken ++ midFlushState.sendChan ++
        midFlushState.flusher.inflight ++ midFlushState.buffer :=
  ⟨by decide, (pipeline_order_no_loss midFlushSched midFlushState (by decide)).1⟩

theorem run_submitAll_init (cs : List Body) (gs : List Fact)
    (hcs : cs.map decodeFact = gs.map some) (hgs : gs.length < bufferSize) :
    run init (submitAll 0 cs) =
      some { init with handlers := accepted cs, buffer := gs, appended := gs } := by
  have h := run_submitAll cs gs init hcs rfl (by simpa [init] using hgs)
  simpa [init, accepted] using h

theorem run_thresholdSched (bs : List Body) (b : Body) (fs : List Fact) (f : Fact)
    (hn : bs.length + 1 = bufferSize) (hd : bs.map decodeFact = fs.map some)
    (hb : decodeFact b = some f) :
    run init (thresholdSched bs b) =
      some { init with handlers := accepted (bs ++ [b]), buffer := fs ++ [f],
                       appended := fs ++ [f], signals := 1, flusher := .lock1 } := by
  have hlen : fs.length = bs.length := by
    have := congrArg List.length hd
    simpa using this.symm
  rw [thresholdSched, run_append, run_submitAll_init bs fs hd (by omega), Option.some_bind]
  have h := run_submit_signal
    { init with handlers := accepted bs, buffer := fs, appended := fs } b f hb rfl
    (by simp; omega) rfl
  simp only [accepted, List.length_map] at h ⊢
  rw [h]
  simp [init]

/-- C5: starting from the initial state with no timer tick, `bufferSize`
well-formed requests handled one after another: after any number of the first
`bufferSize - 1` of them no flush signal has been raised, `bufferWorker` still
waits and `buffer` holds the records so far; the last one raises exactly one
signal, which `bufferWorker` takes; the flush it starts moves all records, in
the order of the requests, into `sendChan` and leaves `buffer` empty. -/
theorem threshold_flush (bs : List Body) (b : Body) (fs : List Fact) (f : Fact)
    (hn : bs.length + 1 = bufferSize) (hd : bs.map decodeFact = fs.map some)
    (hb : decodeFact b = some f) :
    (∀ n, n ≤ bs.length →
      run init (submitAll 0 (bs.take n)) =
        some { init with handlers := accepted (bs.take n), buffer := fs.take n,
                         appended := fs.take n }) ∧
    run init (thresholdSched bs b) =
      some { init with handlers := accepted (bs ++ [b]), buffer := fs ++ [f],
                       appended := fs ++ [f], signals := 1, flusher := .lock1 } ∧
    run init (thresholdSched bs b ++ List.replicate (flushSteps bufferSize) .flush) =
      some { init with handlers := accepted (bs ++ [b]), sendChan := fs ++ [f],
                       appended := fs ++ [f], queued := fs ++ [f], signals := 1 } := by
  have hlen : fs.length = bs.length := by
    have := congrArg List.length hd
    simpa using this.symm
  have hthr := run_thresholdSched bs b fs f hn hd hb
  refine ⟨?_, hthr, ?_⟩
  · intro n hle
    apply run_submitAll_init
    · rw [List.map_take, List.map_take, hd]
    · simp; omega
  · rw [run_append, hthr, Option.some_bind]
    have h := run_flushBuffer
      { init with handlers := accepted (bs ++ [b]), buffer := fs ++ [f],
                  appended := fs ++ [f], signals := 1, flusher := .lock1 } rfl rfl
      (by simp [init]; omega)
    have hl : (fs ++ [f]).length = bufferSize := by simp; omega
    rw [hl] at h
    rw [h]
    simp [init]
/-- An instance of `threshold_flush`: a thousand requests with the sample body. -/
theorem threshold_flush_witness :
    run init (thresholdSched (List.replicate 999 sampleBody) sampleBody ++
        List.replicate (flushSteps bufferSize) .flush) =
      some { init with
        handlers := accepted (List.replicate 999 sampleBody ++ [sampleBody]),
        sendChan := List.replicate 999 sampleFact ++ [sampleFact],
        appended := List.replicate 999 sampleFact ++ [sampleFact],
        queued := List.replicate 999 sampleFact ++ [sampleFact], signals := 1 } :=
  (threshold_flush (List.replicate 999 sampleBody) sampleBody
    (List.replicate 999 sampleFact) sampleFact (by rw [List.length_replicate]; rfl)
    (by rw [List.map_replicate, List.map_replicate]; exact congrArg _ (by decide))
    (by decide)).2.2

/-! ## The handler invariant -/

theorem Handler.ok_mono {a b : List Fact} {h : Handler} (hab : ∀ f, f ∈ a → f ∈ b)
    (hok : h.ok a) : h.ok b := by
  unfold Handler.ok at hok ⊢
  cases hpc : h.pc <;> simp only [hpc] at hok ⊢ <;> first
    | exact hok
    | (obtain ⟨f, h1, h2⟩ := hok; exact ⟨f, h1, hab f h2⟩)
    | (rcases hok with h1 | ⟨h1, f, h2, h3⟩
       · exact Or.inl h1
       · exact Or.inr ⟨h1, f, h2, hab f h3⟩)

theorem mem_of_getElem?_eq {l : List Handler} {i : Nat} {h : Handler}
    (hi : l[i]? = some h) : h ∈ l := by
  obtain ⟨hlt, heq⟩ := List.getElem?_eq_some.mp hi
  exact heq ▸ List.getElem_mem hlt

theorem handlerInv_init : HandlerInv init := by
  intro h hh
  simp [init] at hh

theorem handlerInv_set {s : State} {i : Nat} {h : Handler} {pc : HandlerPc}
    {app : List Fact} (hinv : HandlerInv s) (hmono : ∀ f, f ∈ s.appended → f ∈ app)
    (hnew : Handler.ok app { h with pc := pc }) :
    ∀ g ∈ s.handlers.set i { h with pc := pc }, g.ok app := by
  intro g hg
  rcases List.mem_or_eq_of_mem_set hg with hg | rfl
  · exact Handler.ok_mono hmono (hinv g hg)
  · exact hnew

theorem handlerInv_handler (s : State) (i : Nat) (t : State)
    (hinv : HandlerInv s) (hs : step s (.handler i) = some t) : HandlerInv t := by
  simp only [step, submitHandler] at hs
  split at hs
  · simp at hs
  · rename_i h0 hi
    have hmem : h0 ∈ s.handlers := mem_of_getElem?_eq hi
    have hok := hinv h0 hmem
    unfold Handler.ok at hok
    cases hpc : h0.pc <;> simp only [hpc] at hs hok <;>
      (try split at hs) <;>
      simp only [Option.some.injEq, State.setPc, reduceCtorEq] at hs <;>
      (try subst hs) <;>
      (refine handlerInv_set hinv (fun f hf => ?_) ?_
       · first | exact hf | exact List.mem_append_left _ hf
       · simp_all [Handler.ok])

theorem handlerInv_step (s : State) (a : Action) (t : State)
    (hinv : HandlerInv s) (hs : step s a = some t) : HandlerInv t := by
  cases a with
  | request body =>
    simp only [step, Option.some.injEq] at hs
    subst hs
    intro h hh
    simp only [List.mem_append, List.mem_singleton] at hh
    rcases hh with hh | rfl
    · exact hinv h hh
    · simp [Handler.ok]
  | handler i => exact handlerInv_handler s i t hinv hs
  | tick =>
    simp only [step, bufferWorker, sendWorker] at hs
    split at hs <;> simp only [Option.some.injEq, reduceCtorEq] at hs
    subst hs
    exact hinv
  | flush =>
    simp only [step, flushBuffer] at hs
    split at hs <;> (try split at hs) <;> simp only [Option.some.injEq, reduceCtorEq] at hs <;>
      (try subst hs) <;> exact hinv
  | recv =>
    simp only [step, bufferWorker, sendWorker] at hs
    split at hs <;> (try split at hs) <;> simp only [Option.some.injEq, reduceCtorEq] at hs
    subst hs
    exact hinv
  | sendFact o =>
    simp only [step, bufferWorker, sendWorker] at hs
    split at hs <;> simp only [Option.some.injEq, reduceCtorEq] at hs
    subst hs
    exact hinv

theorem handlerInv_run (acts : List Action) (s : State) (h : run init acts = some s) :
    HandlerInv s :=
  run_invariant HandlerInv handlerInv_step acts init s handlerInv_init h
/-! ## Runs of `sendWorker` -/

theorem run_deliver (os : List Outcome) : ∀ (s : State), s.sender = .recv →
    os.length = s.sendChan.length →
    run s (deliverSched os) =
      some { s with sendChan := [], taken := s.taken ++ s.sendChan,
                    attempts := s.attempts ++ s.sendChan,
                    logs := s.logs ++ List.zipWith sendFact s.sendChan os } := by
  induction os with
  | nil =>
    intro s _ hlen
    have hnil : s.sendChan = [] := List.length_eq_zero.mp hlen.symm
    cases s
    simp_all [deliverSched, run]
  | cons o os ih =>
    intro s hrecv hlen
    cases hq : s.sendChan with
    | nil => rw [hq] at hlen; simp at hlen
    | cons fact rest =>
      rw [hq] at hlen
      simp only [List.length_cons, Nat.add_right_cancel_iff] at hlen
      have h2 : run s [.recv, .sendFact o] =
          some { s with sendChan := rest, taken := s.taken ++ [fact],
                        attempts := s.attempts ++ [fact],
                        logs := s.logs ++ [sendFact fact o] } := by
        cases s
        simp_all [run, step, sendWorker]
      have hih := ih { s with sendChan := rest, taken := s.taken ++ [fact],
                              attempts := s.attempts ++ [fact],
                              logs := s.logs ++ [sendFact fact o] } hrecv hlen
      have hsplit : deliverSched (o :: os) = [.recv, .sendFact o] ++ deliverSched os := rfl
      rw [hsplit, run_append, h2, Option.some_bind, hih]
      simp

/-! ## The handler contract, delivery and the lock discipline -/

/-- The part of the handler contract that holds on the code, for handlers that
are not blocked: in every reachable state a handler that has answered has written 400
and its body failed to decode, or has written 202 and its body decoded to a
record that was appended. A handler whose body fails to decode changes, with
any of its steps, neither `buffer` nor the mutex nor `sendChan`, and raises no
signal; a handler at the append holds the record its body decodes to, and its
step puts that record at the tail of `buffer`. From any reachable state, a
request whose body fails to decode is answered 400 with nothing but the list of
requests changed; a request whose body decodes, handled with the mutex free
(and, at the threshold, with `bufferWorker` waiting at its `select`), is
answered 202 with the record appended at the tail of `buffer`. -/
theorem submitHandler_contract (acts : List Action) (s : State)
    (hr : run init acts = some s) (body : Body) :
    (∀ h ∈ s.handlers, ∀ status, h.pc = .done status →
      (status = 400 ∧ decodeFact h.body = none) ∨
      (status = 202 ∧ ∃ fact, decodeFact h.body = some fact ∧ fact ∈ s.appended)) ∧
    (∀ i h t, s.handlers[i]? = some h → decodeFact h.body = none →
      step s (.handler i) = some t →
      t.buffer = s.buffer ∧ t.signals = s.signals ∧ t.mutex = s.mutex ∧
        t.sendChan = s.sendChan ∧ t.flusher = s.flusher) ∧
    (∀ i h fact, s.handlers[i]? = some h → h.pc = .append fact →
      decodeFact h.body = some fact ∧
      step s (.handler i) =
        some ({ s with buffer := s.buffer ++ [fact],
                       appended := s.appended ++ [fact] }.setPc i h .check)) ∧
    (decodeFact body = none →
      run s (submitSched s.handlers.length body 2) =
        some { s with handlers := s.handlers ++ [⟨body, .done 400⟩] }) ∧
    (∀ fact, decodeFact body = some fact → s.mutex = none →
      s.buffer.length + 1 < bufferSize →
      run s (submitSched s.handlers.length body 6) =
        some { s with handlers := s.handlers ++ [⟨body, .done 202⟩],
                      buffer := s.buffer ++ [fact],
                      appended := s.appended ++ [fact] }) ∧
    (∀ fact, decodeFact body = some fact → s.mutex = none →
      bufferSize ≤ s.buffer.length + 1 → s.flusher = .select →
      run s (submitSched s.handlers.length body 7) =
        some { s with handlers := s.handlers ++ [⟨body, .done 202⟩],
                      buffer := s.buffer ++ [fact],
                      appended := s.appended ++ [fact],
                      signals := s.signals + 1,
                      flusher := .lock1 }) := by
  have hinv := handlerInv_run acts s hr
  refine ⟨?_, ?_, ?_, run_submit_bad s body, ?_, ?_⟩
  · intro h hh status hpc
    have hok := hinv h hh
    unfold Handler.ok at hok
    simpa only [hpc] using hok
  · intro i h t hi hd hs
    have hok := hinv h (mem_of_getElem?_eq hi)
    unfold Handler.ok at hok
    simp only [step, submitHandler, hi] at hs
    cases hpc : h.pc <;> simp only [hpc, hd, reduceCtorEq, false_and, and_false, exists_false,
        or_false] at hs hok <;>
      (try simp only [Option.some.injEq, State.setPc, reduceCtorEq] at hs) <;>
      (try subst hs) <;> exact ⟨rfl, rfl, rfl, rfl, rfl⟩
  · intro i h fact hi hpc
    have hok := hinv h (mem_of_getElem?_eq hi)
    unfold Handler.ok at hok
    simp only [hpc] at hok
    refine ⟨hok, ?_⟩
    simp [step, submitHandler, hi, hpc]
  · intro fact hd hm hlen
    exact run_submit_quiet s body fact hd hm hlen
  · intro fact hd hm hlen hf
    exact run_submit_signal s body fact hd hm hlen hf

/-- An instance of `submitHandler_contract`: a malformed body arriving in a
reachable state is answered 400 and changes nothing else. -/
theorem submitHandler_contract_witness :
    run twoQueued (submitSched 2 .malformed 2) =
      some { twoQueued with handlers := twoQueued.handlers ++ [⟨.malformed, .done 400⟩] } :=
  (submitHandler_contract twoQueuedSched twoQueued (by decide) .malformed).2.2.2.1 rfl

/-- C8: in every reachable state the records `sendFact` has been called with
are exactly the records taken from `sendChan`, in order, up to the one just
received; the call of `sendFact` goes through with every outcome, adds one
attempt and one log line, and leaves `buffer` and `sendChan` as they are; run
alone with any outcomes, `sendWorker` attempts every queued record once, in
queue order, and empties `sendChan` without touching `buffer`. -/
theorem sendWorker_attempts (acts : List Action) (s : State)
    (hr : run init acts = some s) :
    s.taken = s.attempts ++ s.sender.pending ∧
    (∀ fact o, s.sender = .sendFact fact →
      step s (.sendFact o) =
        some { s with attempts := s.attempts ++ [fact],
                      logs := s.logs ++ [sendFact fact o], sender := .recv }) ∧
    (∀ os : List Outcome, s.sender = .recv → os.length = s.sendChan.length →
      run s (deliverSched os) =
        some { s with sendChan := [], taken := s.taken ++ s.sendChan,
                      attempts := s.attempts ++ s.sendChan,
                      logs := s.logs ++ List.zipWith sendFact s.sendChan os }) := by
  refine ⟨(orderInv_run acts s hr).2.2, ?_, ?_⟩
  · intro fact o hs
    simp [step, sendWorker, hs]
  · intro os hrecv hlen
    exact run_deliver os s hrecv hlen

/-- An instance of `sendWorker_attempts`: two queued records, the first answered
with status 500, the second failing in transport; both are attempted, in
order, and neither comes back. -/
theorem sendWorker_attempts_witness :
    run twoQueued (deliverSched [.status 500, .doErr]) =
      some { twoQueued with sendChan := [], taken := [sampleFact, Fact.zero],
                            attempts := [sampleFact, Fact.zero],
                            logs := [.badStatus 500 sampleFact, .sendErr] } :=
  (sendWorker_attempts twoQueuedSched twoQueued (by decide)).2.2
    [.status 500, .doErr] rfl rfl

/-- C9: in every reachable state, `flushBuffer` holds the mutex where it reads
`len(buffer)` (lines 100 and 110), where it removes the head of `buffer`
(lines 111-112) and at each of its three `Unlock` calls; it does not hold it
at the send into `sendChan` (line 114), at any of its three `Lock` calls, at
the check of `bufferLen`, or back at the `select` after returning; and the
loop test is only ever reached by a `Lock` that has just succeeded. -/
theorem flushBuffer_lock_discipline (acts : List Action) (s : State)
    (hr : run init acts = some s) :
    (s.flusher = .readLen → s.mutex = some .flusher) ∧
    (s.flusher = .loopTest → s.mutex = some .flusher) ∧
    (s.flusher = .take → s.mutex = some .flusher) ∧
    (∀ fact, s.flusher = .send fact → s.mutex ≠ some .flusher) ∧
    (∀ n, s.flusher = .unlock1 n → s.mutex = some .flusher) ∧
    (∀ fact, s.flusher = .unlockLoop fact → s.mutex = some .flusher) ∧
    (s.flusher = .unlockEnd → s.mutex = some .flusher) ∧
    (s.flusher = .lock1 ∨ s.flusher = .lock2 ∨ s.flusher = .relock →
      s.mutex ≠ some .flusher) ∧
    (∀ n, s.flusher = .check n → s.mutex ≠ some .flusher) ∧
    (s.flusher = .select → s.mutex ≠ some .flusher) ∧
    (∀ t, step s .flush = some t → t.flusher = .loopTest →
      (s.flusher = .lock2 ∨ s.flusher = .relock) ∧ s.mutex = none ∧
        t.mutex = some .flusher) := by
  have hf := (lockInv_run acts s hr).1
  refine ⟨?_, ?_, ?_, ?_, ?_, ?_, ?_, ?_, ?_, ?_, ?_⟩
  · intro h; rw [h] at hf; simpa [FlushPc.holds] using hf
  · intro h; rw [h] at hf; simpa [FlushPc.holds] using hf
  · intro h; rw [h] at hf; simpa [FlushPc.holds] using hf
  · intro fact h; rw [h] at hf; simpa [FlushPc.holds] using hf
  · intro n h; rw [h] at hf; simpa [FlushPc.holds] using hf
  · intro fact h; rw [h] at hf; simpa [FlushPc.holds] using hf
  · intro h; rw [h] at hf; simpa [FlushPc.holds] using hf
  · rintro (h | h | h) <;> rw [h] at hf <;> simpa [FlushPc.holds] using hf
  · intro n h; rw [h] at hf; simpa [FlushPc.holds] using hf
  · intro h; rw [h] at hf; simpa [FlushPc.holds] using hf
  · intro t hs ht
    simp only [step, flushBuffer] at hs
    cases hpc : s.flusher <;> simp only [hpc] at hs <;>
      (try split at hs) <;> simp only [Option.some.injEq, reduceCtorEq] at hs <;>
      (try subst hs) <;> simp_all

/-- An instance of `flushBuffer_lock_discipline`: right after a tick and the
first `Lock`, at the read of `len(buffer)`, `flushBuffer` holds the mutex. -/
theorem flushBuffer_lock_discipline_witness :
    run init [.tick, .flush] = some readLenState ∧
      readLenState.mutex = some .flusher :=
  ⟨by decide, (flushBuffer_lock_discipline [.tick, .flush] readLenState (by decide)).1 rfl⟩

/-! ## The deadlock -/

theorem run_to_signal (s : State) (n : Nat) (body : Body) (fact : Fact)
    (hn : s.handlers.length = n)
    (hd : decodeFact body = some fact) (hm : s.mutex = none)
    (hlen : bufferSize ≤ s.buffer.length + 1) (hf : s.flusher = .select) :
    run s [.request body, .handler n, .handler n, .tick, .handler n, .handler n] =
      some { s with handlers := s.handlers ++ [⟨body, .signal⟩],
                    buffer := s.buffer ++ [fact],
                    appended := s.appended ++ [fact],
                    mutex := some (.handler n),
                    signals := s.signals + 1,
                    flusher := .lock1 } := by
  subst hn
  simp [run, step, bufferWorker, submitHandler, State.setPc, hd, hm, set_concat_length, hlen, hf]

theorem run_deadlockSched : run init deadlockSched = some deadlockState := by
  have h1 := run_submitAll_init (List.replicate 999 sampleBody)
    (List.replicate 999 sampleFact)
    (by rw [List.map_replicate, List.map_replicate]; exact congrArg _ (by decide))
    (by rw [List.length_replicate]; decide)
  have h2 := run_to_signal
    { init with handlers := accepted (List.replicate 999 sampleBody),
                buffer := List.replicate 999 sampleFact,
                appended := List.replicate 999 sampleFact } 999 sampleBody sampleFact
    (by show (accepted (List.replicate 999 sampleBody)).length = 999
        rw [accepted, List.length_map, List.length_replicate])
    (by decide) rfl
    (by show bufferSize ≤ (List.replicate 999 sampleFact).length + 1
        rw [List.length_replicate]; decide) rfl
  rw [deadlockSched, run_append, h1, Option.some_bind, h2]
  rfl

theorem length_accepted (bs : List Body) : (accepted bs).length = bs.length := by
  rw [accepted, List.length_map]

theorem getElem?_deadlockState :
    deadlockState.handlers[999]? = some { body := sampleBody, pc := .signal } := by
  have hl : (accepted (List.replicate 999 sampleBody)).length = 999 := by
    rw [length_accepted, List.length_replicate]
  have hc := List.getElem?_concat_length (accepted (List.replicate 999 sampleBody))
    { body := sampleBody, pc := HandlerPc.signal }
  rw [hl] at hc
  exact hc

theorem outside_deadlockState (i : Nat) (h : Handler)
    (hi : deadlockState.handlers[i]? = some h) (hne : i ≠ 999) :
    h.pc.outside 999 i := by
  have hl : (accepted (List.replicate 999 sampleBody)).length = 999 := by
    rw [length_accepted, List.length_replicate]
  have hi2 : (accepted (List.replicate 999 sampleBody) ++ [⟨sampleBody, .signal⟩])[i]? =
      some h := hi
  have hlt : i < 999 := by
    have := lt_length_of_getElem? hi2
    rw [List.length_append, hl, List.length_singleton] at this
    omega
  rw [List.getElem?_append_left (by rw [hl]; exact hlt)] at hi2
  have hmem := mem_of_getElem?_eq hi2
  rw [accepted, List.mem_map] at hmem
  obtain ⟨b, _, rfl⟩ := hmem
  exact Or.inr hlt

theorem stuck_deadlockState : Stuck 999 fullBuffer deadlockState :=
  And.intro rfl (And.intro rfl (And.intro rfl (And.intro
    (Exists.intro _ (And.intro getElem?_deadlockState rfl)) outside_deadlockState)))

theorem stuck_step (k : Nat) (buf : List Fact) (s : State) (a : Action) (t : State)
    (hst : Stuck k buf s) (hs : step s a = some t) : Stuck k buf t := by
  obtain ⟨hm, hf, hb, ⟨hk, hkl, hkpc⟩, hout⟩ := hst
  have hklt := lt_length_of_getElem? hkl
  cases a with
  | request body =>
    simp only [step, Option.some.injEq] at hs
    subst hs
    refine ⟨hm, hf, hb, ⟨hk, ?_, hkpc⟩, ?_⟩
    · show (s.handlers ++ _)[k]? = _
      rw [List.getElem?_append_left hklt]; exact hkl
    · intro i h hi hne
      have hi2 : (s.handlers ++ [{ body := body, pc := HandlerPc.decode }])[i]? = some h := hi
      by_cases hlt : i < s.handlers.length
      · rw [List.getElem?_append_left hlt] at hi2
        exact hout i h hi2 hne
      · have hmem := mem_of_getElem?_eq hi2
        rw [List.mem_append] at hmem
        rcases hmem with hmem | hmem
        · rw [List.getElem?_append_right (Nat.le_of_not_lt hlt)] at hi2
          have hmem2 := mem_of_getElem?_eq hi2
          rw [List.mem_singleton] at hmem2
          subst hmem2
          trivial
        · rw [List.mem_singleton] at hmem
          subst hmem
          trivial
  | handler i =>
    simp only [step, submitHandler] at hs
    split at hs
    · simp at hs
    · rename_i h0 hi
      by_cases hik : i = k
      · subst hik
        rw [hkl] at hi
        cases hi
        simp [hkpc, hf] at hs
      · have ho := hout i h0 hi hik
        have hmn : ¬ (s.mutex = none) := by rw [hm]; simp
        cases hpc : h0.pc <;> simp only [hpc, HandlerPc.outside, hmn, if_false] at hs ho <;>
          (try split at hs) <;>
          simp only [Option.some.injEq, State.setPc, reduceCtorEq] at hs <;>
          (try subst hs) <;>
          (refine ⟨hm, hf, hb, ⟨hk, ?_, hkpc⟩, ?_⟩
           · show (s.handlers.set i _)[k]? = _
             rw [List.getElem?_set_ne hik]; exact hkl
           · intro j g hg hne
             rcases getElem?_set_pc hi hg with ⟨rfl, rfl⟩ | ⟨_, hj⟩
             · simp [HandlerPc.outside]
             · exact hout j g hj hne)
  | tick =>
    simp [step, bufferWorker, hf] at hs
  | flush =>
    simp [step, flushBuffer, hf, hm] at hs
  | recv =>
    simp only [step, bufferWorker, sendWorker] at hs
    split at hs <;> (try split at hs) <;> simp only [Option.some.injEq, reduceCtorEq] at hs
    subst hs
    exact ⟨hm, hf, hb, ⟨hk, hkl, hkpc⟩, hout⟩
  | sendFact o =>
    simp only [step, bufferWorker, sendWorker] at hs
    split at hs <;> simp only [Option.some.injEq, reduceCtorEq] at hs
    subst hs
    exact ⟨hm, hf, hb, ⟨hk, hkl, hkpc⟩, hout⟩

theorem stuck_run (k : Nat) (buf : List Fact) (acts : List Action) (s t : State)
    (hst : Stuck k buf s) (h : run s acts = some t) : Stuck k buf t :=
  run_invariant (Stuck k buf) (stuck_step k buf) acts s t hst h
theorem stuck_handler_blocked (k : Nat) (buf : List Fact) (s : State)
    (hst : Stuck k buf s) : step s (.handler k) = none := by
  obtain ⟨_, hf, _, ⟨hk, hkl, hkpc⟩, _⟩ := hst
  simp [step, submitHandler, hkl, hkpc, hf]

theorem stuck_flush_blocked (k : Nat) (buf : List Fact) (s : State)
    (hst : Stuck k buf s) : step s .flush = none ∧ step s .tick = none := by
  obtain ⟨hm, hf, _, _, _⟩ := hst
  constructor
  · simp [step, flushBuffer, hf, hm]
  · simp [step, bufferWorker, hf]

theorem stuck_lock_blocked (k : Nat) (buf : List Fact) (s : State)
    (hst : Stuck k buf s) (i : Nat) (h : Handler) (fact : Fact)
    (hi : s.handlers[i]? = some h) (hpc : h.pc = .lock fact) :
    step s (.handler i) = none := by
  obtain ⟨hm, _, _, _, _⟩ := hst
  simp [step, submitHandler, hi, hpc, hm]

/-- C3: the send on `flushChan` at line 71 blocks. The state `deadlockState` is
reachable; in it handler 999 has appended its record, `len(buffer)` is
`bufferSize`, the handler is at the send and still holds the mutex, while
`bufferWorker` is inside a flush started by the ticker and not at its `select`;
the handler cannot move, and in no continuation does it ever leave the send:
it neither releases the mutex nor answers 202. -/
theorem flush_signal_blocks :
    run init deadlockSched = some deadlockState ∧
    deadlockState.handlers[999]? = some { body := sampleBody, pc := .signal } ∧
    bufferSize ≤ deadlockState.buffer.length ∧
    deadlockState.flusher ≠ .select ∧
    step deadlockState (.handler 999) = none ∧
    ∀ acts t, run deadlockState acts = some t →
      (∃ h, t.handlers[999]? = some h ∧ h.pc = .signal) ∧
      step t (.handler 999) = none := by
  refine ⟨run_deadlockSched, getElem?_deadlockState, ?_, ?_,
    stuck_handler_blocked 999 fullBuffer deadlockState stuck_deadlockState, ?_⟩
  · show bufferSize ≤ (List.replicate 999 sampleFact ++ [sampleFact]).length
    rw [List.length_append, List.length_replicate]
    decide
  · show FlushPc.lock1 ≠ FlushPc.select
    decide
  · intro acts t ht
    have hst := stuck_run 999 fullBuffer acts deadlockState t stuck_deadlockState ht
    exact ⟨hst.2.2.2.1, stuck_handler_blocked 999 fullBuffer t hst⟩

/-- C4: the pipeline deadlocks. The state `deadlockState` is reachable; in it
handler 999 holds the mutex and waits at the send on `flushChan` while
`bufferWorker` waits at the first `mutex.Lock()` of `flushBuffer`. In every
continuation the mutex stays with handler 999, `bufferWorker` stays at that
`Lock` and can take neither a step nor a tick, `buffer` is never drained, and
every later request either is rejected with 400 or stops at its `mutex.Lock()`:
none is ever appended or answered 202. -/
theorem handler_flusher_deadlock :
    run init deadlockSched = some deadlockState ∧
    deadlockState.mutex = some (.handler 999) ∧
    deadlockState.flusher = .lock1 ∧
    ∀ acts t, run deadlockState acts = some t →
      t.mutex = some (.handler 999) ∧ t.flusher = .lock1 ∧
      t.buffer = deadlockState.buffer ∧
      step t .flush = none ∧ step t .tick = none ∧
      step t (.handler 999) = none ∧
      ∀ i h, t.handlers[i]? = some h → 999 < i →
        (h.pc = .decode ∨ h.pc = .bad ∨ h.pc = .done 400 ∨
          ∃ fact, h.pc = .lock fact ∧ step t (.handler i) = none) := by
  refine ⟨run_deadlockSched, rfl, rfl, ?_⟩
  intro acts t ht
  have hst := stuck_run 999 fullBuffer acts deadlockState t stuck_deadlockState ht
  have hfl := stuck_flush_blocked 999 fullBuffer t hst
  refine ⟨hst.1, hst.2.1, hst.2.2.1, hfl.1, hfl.2,
    stuck_handler_blocked 999 fullBuffer t hst, ?_⟩
  intro i h hi hlt
  have ho := hst.2.2.2.2 i h hi (by omega)
  cases hpc : h.pc <;> simp only [hpc, HandlerPc.outside] at ho
  · exact Or.inl rfl
  · exact Or.inr (Or.inl rfl)
  · rename_i fact
    exact Or.inr (Or.inr (Or.inr ⟨fact, rfl, stuck_lock_blocked 999 fullBuffer t hst i h fact hi hpc⟩))
  · rcases ho with ho | ho
    · subst ho
      exact Or.inr (Or.inr (Or.inl rfl))
    · omega

theorem body_step (s : State) (a : Action) (t : State) (i : Nat) (h : Handler)
    (hs : step s a = some t) (hi : s.handlers[i]? = some h) :
    ∃ g, t.handlers[i]? = some g ∧ g.body = h.body := by
  have hlt := lt_length_of_getElem? hi
  cases a with
  | request body =>
    simp only [step, Option.some.injEq] at hs
    subst hs
    refine ⟨h, ?_, rfl⟩
    show (s.handlers ++ _)[i]? = _
    rw [List.getElem?_append_left hlt]; exact hi
  | handler j =>
    simp only [step, submitHandler] at hs
    split at hs
    · simp at hs
    · rename_i h0 hj
      have hset : ∀ pc : HandlerPc,
          ∃ g, (s.handlers.set j { h0 with pc := pc })[i]? = some g ∧ g.body = h.body := by
        intro pc
        by_cases hji : j = i
        · subst hji
          rw [hj] at hi
          cases hi
          exact ⟨{ h with pc := pc }, by rw [List.getElem?_set_self hlt], rfl⟩
        · exact ⟨h, by rw [List.getElem?_set_ne hji]; exact hi, rfl⟩
      cases hpc : h0.pc <;> simp only [hpc] at hs <;>
        (try split at hs) <;>
        simp only [Option.some.injEq, State.setPc, reduceCtorEq] at hs <;>
        (try subst hs) <;> exact hset _
  | tick =>
    simp only [step, bufferWorker, sendWorker] at hs
    split at hs <;> simp only [Option.some.injEq, reduceCtorEq] at hs
    subst hs
    exact ⟨h, hi, rfl⟩
  | flush =>
    simp only [step, flushBuffer] at hs
    split at hs <;> (try split at hs) <;> simp only [Option.some.injEq, reduceCtorEq] at hs <;>
      (try subst hs) <;> exact ⟨h, hi, rfl⟩
  | recv =>
    simp only [step, bufferWorker, sendWorker] at hs
    split at hs <;> (try split at hs) <;> simp only [Option.some.injEq, reduceCtorEq] at hs
    subst hs
    exact ⟨h, hi, rfl⟩
  | sendFact o =>
    simp only [step, bufferWorker, sendWorker] at hs
    split at hs <;> simp only [Option.some.injEq, reduceCtorEq] at hs
    subst hs
    exact ⟨h, hi, rfl⟩

theorem body_run (acts : List Action) : ∀ (s t : State) (i : Nat) (h : Handler),
    run s acts = some t → s.handlers[i]? = some h →
    ∃ g, t.handlers[i]? = some g ∧ g.body = h.body := by
  induction acts with
  | nil =>
    intro s t i h hr hi
    simp only [run, Option.some.injEq] at hr
    subst hr
    exact ⟨h, hi, rfl⟩
  | cons a rest ih =>
    intro s t i h hr hi
    simp only [run] at hr
    cases hsa : step s a with
    | none => simp [hsa] at hr
    | some u =>
      simp only [hsa, Option.some_bind] at hr
      obtain ⟨g, hg, hgb⟩ := body_step s a u i h hsa hi
      obtain ⟨g2, hg2, hgb2⟩ := ih u t i g hr hg
      exact ⟨g2, hg2, hgb2.trans hgb⟩

/-- C6: the accept/reject contract fails on the code for a body that decodes.
The state `deadlockState` is reachable; request 999 in it has the body
`sampleBody`, which decodes to `sampleFact`, and its handler has appended that
record; in every continuation the handler of request 999 still has that body
and is still at the send on `flushChan` (line 71): it has written no status,
neither 202 nor 400, and cannot take a step. -/
theorem decodable_request_unanswered :
    run init deadlockSched = some deadlockState ∧
    decodeFact sampleBody = some sampleFact ∧
    deadlockState.handlers[999]? = some { body := sampleBody, pc := .signal } ∧
    deadlockState.buffer = List.replicate 999 sampleFact ++ [sampleFact] ∧
    ∀ acts t, run deadlockState acts = some t →
      ∃ h, t.handlers[999]? = some h ∧ h.body = sampleBody ∧ h.pc = .signal ∧
        (∀ status, h.pc ≠ .done status) ∧ step t (.handler 999) = none := by
  refine ⟨run_deadlockSched, by decide, getElem?_deadlockState, rfl, ?_⟩
  intro acts t ht
  have hst := stuck_run 999 fullBuffer acts deadlockState t stuck_deadlockState ht
  obtain ⟨g, hg, hgb⟩ := body_run acts deadlockState t 999 _ ht getElem?_deadlockState
  obtain ⟨h, hh, hpc⟩ := hst.2.2.2.1
  rw [hg] at hh
  cases hh
  refine ⟨g, hg, hgb, hpc, ?_, stuck_handler_blocked 999 fullBuffer t hst⟩
  intro status hd
  rw [hpc] at hd
  cases hd

/-! ## The form fields -/

theorem formData_eq (fact : Fact) :
    formData fact =
      [("period_start", [fact.PeriodStart]), ("period_end", [fact.PeriodEnd]),
       ("period_key", [fact.PeriodKey]),
       ("indicator_to_mo_id", [Itoa fact.IndicatorToMoID]),
       ("indicator_to_mo_fact_id", [Itoa fact.IndicatorToMoFactID]),
       ("value", [Itoa fact.Value]), ("fact_time", [fact.FactTime]),
       ("is_plan", [Itoa fact.IsPlan]), ("auth_user_id", [Itoa fact.AuthUserID]),
       ("comment", [fact.Comment])] := by
  simp [formData, Values.Set]

theorem digitChar_toNat : ∀ d, d < 10 → (Nat.digitChar d).toNat = 48 + d := by
  decide

theorem digitsValue_concat (cs : List Char) (c : Char) :
    digitsValue (cs ++ [c]) = 10 * digitsValue cs + (c.toNat - 48) := by
  simp [digitsValue, List.foldl_append]

theorem toDigitsCore_spec (fuel : Nat) : ∀ (n : Nat) (ds : List Char), n < fuel →
    ∃ pre, Nat.toDigitsCore 10 fuel n ds = pre ++ ds ∧ digitsValue pre = n ∧
      pre ≠ [] ∧ ∀ c ∈ pre, 48 ≤ c.toNat ∧ c.toNat ≤ 57 := by
  induction fuel with
  | zero => intro n ds h; omega
  | succ fuel ih =>
    intro n ds hlt
    have hd : (Nat.digitChar (n % 10)).toNat = 48 + n % 10 :=
      digitChar_toNat (n % 10) (Nat.mod_lt n (by decide))
    simp only [Nat.toDigitsCore]
    by_cases h0 : n / 10 = 0
    · rw [if_pos h0]
      refine ⟨[Nat.digitChar (n % 10)], rfl, ?_, by simp, ?_⟩
      · simp only [digitsValue, List.foldl_cons, List.foldl_nil, hd]
        omega
      · intro c hc
        rw [List.mem_singleton] at hc
        subst hc
        omega
    · rw [if_neg h0]
      obtain ⟨pre, hpre, hval, _, hdig⟩ := ih (n / 10) (Nat.digitChar (n % 10) :: ds) (by omega)
      refine ⟨pre ++ [Nat.digitChar (n % 10)], ?_, ?_, by simp, ?_⟩
      · rw [hpre]; simp
      · rw [digitsValue_concat, hval, hd]
        omega
      · intro c hc
        rw [List.mem_append, List.mem_singleton] at hc
        rcases hc with hc | rfl
        · exact hdig c hc
        · omega

theorem repr_spec (n : Nat) :
    digitsValue (Nat.repr n).data = n ∧ (Nat.repr n).data ≠ [] ∧
      ∀ c ∈ (Nat.repr n).data, 48 ≤ c.toNat ∧ c.toNat ≤ 57 := by
  obtain ⟨pre, hpre, hval, hne, hdig⟩ := toDigitsCore_spec (n + 1) n [] (Nat.lt_succ_self n)
  have hdata : (Nat.repr n).data = pre := by
    show Nat.toDigitsCore 10 (n + 1) n [] = pre
    rw [hpre, List.append_nil]
  rw [hdata]
  exact ⟨hval, hne, hdig⟩

theorem decimalValue_Itoa (i : Int) : decimalValue (Itoa i) = i := by
  obtain ⟨hval, hne, hdig⟩ := repr_spec i.natAbs
  unfold Itoa
  split
  · rename_i hneg
    have hdata : ("-" ++ Nat.repr i.natAbs).data = Char.ofNat 45 :: (Nat.repr i.natAbs).data := by
      rw [String.data_append]; rfl
    unfold decimalValue
    rw [hdata]
    simp only [hval]
    have : (Char.ofNat 45).toNat = 45 := by decide
    rw [if_pos this]
    omega
  · rename_i hpos
    unfold decimalValue
    cases hd : (Nat.repr i.natAbs).data with
    | nil => exact absurd hd hne
    | cons c cs =>
      have hc := hdig c (by rw [hd]; exact List.mem_cons_self c cs)
      have h45 : ¬ c.toNat = 45 := by omega
      simp only [h45, if_false]
      rw [← hd, hval]
      omega

/-- C7: the form fields `sendFact` builds have exactly the ten keys, each once;
every text field appears with its string and every integer field with the text
`Itoa` gives its value, which read as a decimal number is that value; for the
zero `Fact` every numeric key has the value `0` and every text key the empty
value. -/
theorem sendFact_form_fields (fact : Fact) :
    (formData fact).map Prod.fst = formKeys ∧ formKeys.Nodup ∧ formKeys.length = 10 ∧
    (formData fact).lookup "period_start" = some [fact.PeriodStart] ∧
    (formData fact).lookup "period_end" = some [fact.PeriodEnd] ∧
    (formData fact).lookup "period_key" = some [fact.PeriodKey] ∧
    (formData fact).lookup "indicator_to_mo_id" = some [Itoa fact.IndicatorToMoID] ∧
    (formData fact).lookup "indicator_to_mo_fact_id" = some [Itoa fact.IndicatorToMoFactID] ∧
    (formData fact).lookup "value" = some [Itoa fact.Value] ∧
    (formData fact).lookup "fact_time" = some [fact.FactTime] ∧
    (formData fact).lookup "is_plan" = some [Itoa fact.IsPlan] ∧
    (formData fact).lookup "auth_user_id" = some [Itoa fact.AuthUserID] ∧
    (formData fact).lookup "comment" = some [fact.Comment] ∧
    (∀ n : Int, decimalValue (Itoa n) = n) ∧
    formData Fact.zero =
      [("period_start", [""]), ("period_end", [""]), ("period_key", [""]),
       ("indicator_to_mo_id", ["0"]), ("indicator_to_mo_fact_id", ["0"]),
       ("value", ["0"]), ("fact_time", [""]), ("is_plan", ["0"]),
       ("auth_user_id", ["0"]), ("comment", [""])] := by
  rw [formData_eq]
  refine ⟨rfl, by decide, rfl, ?_, ?_, ?_, ?_, ?_, ?_, ?_, ?_, ?_, ?_, decimalValue_Itoa,
    by decide⟩ <;> simp [Values.lookup]

/-! ## Decoding and the zero value -/

theorem decodeMembers_append (f : Fact) (l r : List (String × JValue)) :
    decodeMembers f (l ++ r) = (decodeMembers f l).bind fun g => decodeMembers g r := by
  induction l generalizing f with
  | nil => simp [decodeMembers]
  | cons kv l ih =>
    simp only [List.cons_append, decodeMembers]
    cases decodeMember f kv with
    | none => simp
    | some g => simpa using ih g

theorem field_set_PeriodStart (f : Fact) (v : String) (key : String) (hne : key ≠ "period_start") :
    Fact.field { f with PeriodStart := v } key = f.field key := by
  simp [Fact.field, hne]

theorem field_set_PeriodEnd (f : Fact) (v : String) (key : String) (hne : key ≠ "period_end") :
    Fact.field { f with PeriodEnd := v } key = f.field key := by
  simp [Fact.field, hne]

theorem field_set_PeriodKey (f : Fact) (v : String) (key : String) (hne : key ≠ "period_key") :
    Fact.field { f with PeriodKey := v } key = f.field key := by
  simp [Fact.field, hne]

theorem field_set_IndicatorToMoID (f : Fact) (v : Int) (key : String) (hne : key ≠ "indicator_to_mo_id") :
    Fact.field { f with IndicatorToMoID := v } key = f.field key := by
  simp [Fact.field, hne]

theorem field_set_IndicatorToMoFactID (f : Fact) (v : Int) (key : String) (hne : key ≠ "indicator_to_mo_fact_id") :
    Fact.field { f with IndicatorToMoFactID := v } key = f.field key := by
  simp [Fact.field, hne]

theorem field_set_Value (f : Fact) (v : Int) (key : String) (hne : key ≠ "value") :
    Fact.field { f with Value := v } key = f.field key := by
  simp [Fact.field, hne]

theorem field_set_FactTime (f : Fact) (v : String) (key : String) (hne : key ≠ "fact_time") :
    Fact.field { f with FactTime := v } key = f.field key := by
  simp [Fact.field, hne]

theorem field_set_IsPlan (f : Fact) (v : Int) (key : String) (hne : key ≠ "is_plan") :
    Fact.field { f with IsPlan := v } key = f.field key := by
  simp [Fact.field, hne]

theorem field_set_AuthUserID (f : Fact) (v : Int) (key : String) (hne : key ≠ "auth_user_id") :
    Fact.field { f with AuthUserID := v } key = f.field key := by
  simp [Fact.field, hne]

theorem field_set_Comment (f : Fact) (v : String) (key : String) (hne : key ≠ "comment") :
    Fact.field { f with Comment := v } key = f.field key := by
  simp [Fact.field, hne]

theorem foldName_PeriodStart : foldName "period_start" = "PERIOD_START" := by decide

theorem foldName_PeriodEnd : foldName "period_end" = "PERIOD_END" := by decide

theorem foldName_PeriodKey : foldName "period_key" = "PERIOD_KEY" := by decide

theorem foldName_IndicatorToMoID : foldName "indicator_to_mo_id" = "INDICATOR_TO_MO_ID" := by decide

theorem foldName_IndicatorToMoFactID : foldName "indicator_to_mo_fact_id" = "INDICATOR_TO_MO_FACT_ID" := by decide

theorem foldName_Value : foldName "value" = "VALUE" := by decide

theorem foldName_FactTime : foldName "fact_time" = "FACT_TIME" := by decide

theorem foldName_IsPlan : foldName "is_plan" = "IS_PLAN" := by decide

theorem foldName_AuthUserID : foldName "auth_user_id" = "AUTH_USER_ID" := by decide

theorem foldName_Comment : foldName "comment" = "COMMENT" := by decide

theorem decodeMember_field (f g : Fact) (kv : String × JValue) (key : String)
    (h : decodeMember f kv = some g) (hne : foldName kv.1 ≠ foldName key) :
    g.field key = f.field key := by
  unfold decodeMember at h
  by_cases h1 : foldName kv.1 = "PERIOD_START"
  · rw [if_pos h1] at h
    obtain ⟨v, _, rfl⟩ := Option.map_eq_some'.mp h
    exact field_set_PeriodStart f v key (fun e => hne (by rw [e, h1, foldName_PeriodStart]))
  rw [if_neg h1] at h
  by_cases h2 : foldName kv.1 = "PERIOD_END"
  · rw [if_pos h2] at h
    obtain ⟨v, _, rfl⟩ := Option.map_eq_some'.mp h
    exact field_set_PeriodEnd f v key (fun e => hne (by rw [e, h2, foldName_PeriodEnd]))
  rw [if_neg h2] at h
  by_cases h3 : foldName kv.1 = "PERIOD_KEY"
  · rw [if_pos h3] at h
    obtain ⟨v, _, rfl⟩ := Option.map_eq_some'.mp h
    exact field_set_PeriodKey f v key (fun e => hne (by rw [e, h3, foldName_PeriodKey]))
  rw [if_neg h3] at h
  by_cases h4 : foldName kv.1 = "INDICATOR_TO_MO_ID"
  · rw [if_pos h4] at h
    obtain ⟨v, _, rfl⟩ := Option.map_eq_some'.mp h
    exact field_set_IndicatorToMoID f v key (fun e => hne (by rw [e, h4, foldName_IndicatorToMoID]))
  rw [if_neg h4] at h
  by_cases h5 : foldName kv.1 = "INDICATOR_TO_MO_FACT_ID"
  · rw [if_pos h5] at h
    obtain ⟨v, _, rfl⟩ := Option.map_eq_some'.mp h
    exact field_set_IndicatorToMoFactID f v key (fun e => hne (by rw [e, h5, foldName_IndicatorToMoFactID]))
  rw [if_neg h5] at h
  by_cases h6 : foldName kv.1 = "VALUE"
  · rw [if_pos h6] at h
    obtain ⟨v, _, rfl⟩ := Option.map_eq_some'.mp h
    exact field_set_Value f v key (fun e => hne (by rw [e, h6, foldName_Value]))
  rw [if_neg h6] at h
  by_cases h7 : foldName kv.1 = "FACT_TIME"
  · rw [if_pos h7] at h
    obtain ⟨v, _, rfl⟩ := Option.map_eq_some'.mp h
    exact field_set_FactTime f v key (fun e => hne (by rw [e, h7, foldName_FactTime]))
  rw [if_neg h7] at h
  by_cases h8 : foldName kv.1 = "IS_PLAN"
  · rw [if_pos h8] at h
    obtain ⟨v, _, rfl⟩ := Option.map_eq_some'.mp h
    exact field_set_IsPlan f v key (fun e => hne (by rw [e, h8, foldName_IsPlan]))
  rw [if_neg h8] at h
  by_cases h9 : foldName kv.1 = "AUTH_USER_ID"
  · rw [if_pos h9] at h
    obtain ⟨v, _, rfl⟩ := Option.map_eq_some'.mp h
    exact field_set_AuthUserID f v key (fun e => hne (by rw [e, h9, foldName_AuthUserID]))
  rw [if_neg h9] at h
  by_cases h10 : foldName kv.1 = "COMMENT"
  · rw [if_pos h10] at h
    obtain ⟨v, _, rfl⟩ := Option.map_eq_some'.mp h
    exact field_set_Comment f v key (fun e => hne (by rw [e, h10, foldName_Comment]))
  rw [if_neg h10] at h
  simp only [Option.some.injEq] at h
  rw [h]

theorem decodeMembers_field (key : String) (l : List (String × JValue)) :
    ∀ (f g : Fact), decodeMembers f l = some g →
      (∀ kv ∈ l, foldName kv.1 ≠ foldName key) → g.field key = f.field key := by
  induction l with
  | nil =>
    intro f g h _
    simp only [decodeMembers, Option.some.injEq] at h
    rw [h]
  | cons kv l ih =>
    intro f g h hk
    simp only [decodeMembers] at h
    cases hm : decodeMember f kv with
    | none => simp [hm] at h
    | some f1 =>
      simp only [hm, Option.some_bind] at h
      rw [ih f1 g h (fun kv2 h2 => hk kv2 (List.mem_cons_of_mem _ h2)),
        decodeMember_field f f1 kv key hm (hk kv (List.mem_cons_self _ _))]

theorem field_zero (key : String) (hk : key ∈ stringKeys ++ intKeys) :
    Fact.zero.field key = some (zeroValue key) := by
  simp only [stringKeys, intKeys, List.cons_append, List.nil_append, List.mem_cons,
    List.mem_singleton, List.not_mem_nil, or_false] at hk
  rcases hk with rfl | rfl | rfl | rfl | rfl | rfl | rfl | rfl | rfl | rfl <;> decide

theorem decodeMember_zero (f : Fact) (key : String) (hk : key ∈ stringKeys ++ intKeys)
    (hf : f.field key = some (zeroValue key)) :
    decodeMember f (key, zeroValue key) = some f := by
  simp only [stringKeys, intKeys, List.cons_append, List.nil_append, List.mem_cons,
    List.mem_singleton, List.not_mem_nil, or_false] at hk
  cases f
  rcases hk with rfl | rfl | rfl | rfl | rfl | rfl | rfl | rfl | rfl | rfl <;>
    simp [Fact.field, zeroValue, intKeys] at hf <;>
    simp [decodeMember, zeroValue, intKeys, decodeString, decodeInt, fitsInt, hf,
      foldName_PeriodStart, foldName_PeriodEnd, foldName_PeriodKey, foldName_IndicatorToMoID,
      foldName_IndicatorToMoFactID, foldName_Value, foldName_FactTime, foldName_IsPlan,
      foldName_AuthUserID, foldName_Comment]

theorem mem_marshalString (k key v : String) :
    k ∈ (marshalString key v).map Prod.fst ↔ k = key ∧ v ≠ "" := by
  unfold marshalString
  split <;> simp_all

theorem mem_marshalInt (k key : String) (v : Int) :
    k ∈ (marshalInt key v).map Prod.fst ↔ k = key ∧ v ≠ 0 := by
  unfold marshalInt
  split <;> simp_all

theorem mem_marshalFact (f : Fact) (key : String) (hk : key ∈ stringKeys ++ intKeys) :
    key ∈ (marshalFact f).map Prod.fst ↔ f.field key ≠ some (zeroValue key) := by
  simp only [stringKeys, intKeys, List.cons_append, List.nil_append, List.mem_cons,
    List.mem_singleton, List.not_mem_nil, or_false] at hk
  simp only [marshalFact, List.map_append, List.mem_append, mem_marshalString, mem_marshalInt]
  rcases hk with rfl | rfl | rfl | rfl | rfl | rfl | rfl | rfl | rfl | rfl <;>
    simp [Fact.field, zeroValue, intKeys]

/-- C10, as the code has it: a field of `Fact` has no absent state. Decoding an
object in which one of the ten fields is given explicitly as `0` (an `int`
field) or as the empty string (a `string` field) gives the same result as
decoding the otherwise identical object without that field (no other member
has a key that matches the field's tag); the JSON object of
a `Fact` has the key of a field exactly when the field's value is not that
zero; so an explicitly given zero is gone after decoding and encoding again. -/
theorem absent_equals_zero (key : String) (hk : key ∈ stringKeys ++ intKeys)
    (pre post : List (String × JValue))
    (hpre : ∀ kv ∈ pre, foldName kv.1 ≠ foldName key)
    (hpost : ∀ kv ∈ post, foldName kv.1 ≠ foldName key) :
    decodeFact (.object (pre ++ (key, zeroValue key) :: post)) =
      decodeFact (.object (pre ++ post)) ∧
    (∀ f : Fact, key ∈ (marshalFact f).map Prod.fst ↔ f.field key ≠ some (zeroValue key)) ∧
    (∀ f : Fact, decodeFact (.object (pre ++ (key, zeroValue key) :: post)) = some f →
      key ∉ (marshalFact f).map Prod.fst) := by
  have hfirst : decodeFact (.object (pre ++ (key, zeroValue key) :: post)) =
      decodeFact (.object (pre ++ post)) := by
    simp only [decodeFact, decodeMembers_append, decodeMembers]
    cases hp : decodeMembers Fact.zero pre with
    | none => simp
    | some g =>
      have hg : g.field key = some (zeroValue key) := by
        rw [decodeMembers_field key pre Fact.zero g hp hpre, field_zero key hk]
      simp [decodeMember_zero g key hk hg]
  refine ⟨hfirst, fun f => mem_marshalFact f key hk, ?_⟩
  intro f hf
  rw [hfirst] at hf
  have hall : ∀ kv ∈ pre ++ post, foldName kv.1 ≠ foldName key := by
    intro kv hkv
    rcases List.mem_append.mp hkv with h1 | h1
    · exact hpre kv h1
    · exact hpost kv h1
  have hz : f.field key = some (zeroValue key) := by
    rw [decodeMembers_field key (pre ++ post) Fact.zero f hf hall, field_zero key hk]
  rw [mem_marshalFact f key hk]
  simp [hz]

/-- An instance of `absent_equals_zero`: an explicit `"value": 0` next to a
comment decodes like the comment alone. -/
theorem absent_equals_zero_witness :
    decodeFact (.object ([("comment", .str "x")] ++ ("value", zeroValue "value") :: [])) =
      decodeFact (.object ([("comment", .str "x")] ++ [])) :=
  (absent_equals_zero "value" (by decide) [("comment", .str "x")] [] (by decide)
    (by decide)).1

/-- C10 as stated fails: the object with `"value": 0` and the empty object decode
to the same `Fact`, whose JSON object is empty; likewise for an explicit empty
`comment`. -/
theorem zero_value_not_kept :
    decodeFact (.object [("value", .int 0)]) = decodeFact (.object []) ∧
    (decodeFact (.object [("value", .int 0)])).map marshalFact = some [] ∧
    (decodeFact (.object [("comment", .str "")])).map marshalFact = some [] := by
  decide

end Sobes
